import Mathlib

/-!
Shallow embedding of the computational core of `src/App.jsx`
(Comparative Yield → Production app).

Modelling conventions:
- JavaScript numbers are modelled as exact rationals (`ℚ`).  A value that is
  not a finite number after `Number(...)` coercion (NaN, Infinity, undefined)
  is modelled as `none : Option ℚ`; the code's `asNumber` is absorbed into
  this representation.
- `Math.round` rounds half-up (ties toward +∞), i.e. `⌊q + 1/2⌋` on exact
  rationals.
- JavaScript strings are Lean `String`s.  The truthiness test `!s` on a
  string is `s = ""`.
- `String.prototype.localeCompare` is modelled as comparison in the
  lexicographic linear order on `String` (the spec reads the sort keys "as
  string comparison").
- The regex character class `\s` is modelled by `Char.isWhitespace`, and the
  JavaScript line terminators relevant to `.` /`$` semantics by
  `isLineTerminator` below.
- JS objects used as string-keyed maps are modelled either as functions
  `String → Option _` (the per-KA statistics and slope tables) or as
  insertion-ordered association lists (the group map, whose iteration order
  matters for the output), and a JS `Set` as an insertion-ordered
  duplicate-free list.
-/

namespace CYApp

/-- The fixed replicate bag numbers, `BAG_NUMBERS = [1, 3, 5]` in the source. -/
def BAG_NUMBERS : List ℕ := [1, 3, 5]

/-- The unit-conversion constant `LBS_PER_ACRE_FACTOR = 55.7612`. -/
def LBS_PER_ACRE_FACTOR : ℚ := 55.7612

/-- Input to `normalizeDate`: a JS value that is a valid `Date` (with local
calendar components `year`, 0-based `month0`, `day`), an invalid `Date`
(whose timestamp is NaN), a string, or anything else (null, number, ...). -/
inductive JSDateInput where
  | jsDate (year : ℤ) (month0 : ℕ) (day : ℕ)
  | invalidDate
  | str (s : String)
  | other
deriving DecidableEq

/-- Model of `String(n).padStart(2, "0")` for the month/day components. -/
def pad2 (n : ℕ) : String :=
  let s := toString n
  if s.length < 2 then "0" ++ s else s

/-- `normalizeDate` from the source: a valid `Date` is formatted as
zero-padded `YYYY-MM-DD`; a string passes through unchanged; anything else
(including an invalid `Date`) becomes `""`. -/
def normalizeDate : JSDateInput → String
  | .jsDate y m0 d => toString y ++ "-" ++ pad2 (m0 + 1) ++ "-" ++ pad2 d
  | .invalidDate => ""
  | .str s => s
  | .other => ""

/-- Result record of `parseAncestry`. -/
structure Ancestry where
  allotment : String
  pasture : String
deriving DecidableEq

/-- Drop trailing characters satisfying `p` from a character list. -/
def dropTrailing (p : Char → Bool) (l : List Char) : List Char :=
  (l.reverse.dropWhile p).reverse

/-- Model of `String.prototype.trim()`: remove leading and trailing
whitespace. -/
def jsTrim (s : String) : String :=
  ⟨dropTrailing Char.isWhitespace (s.data.dropWhile Char.isWhitespace)⟩

/-- Model of `String.prototype.split(">")` on the character list: split at
every occurrence of the separator character. -/
def splitGt : List Char → List (List Char)
  | [] => [[]]
  | c :: cs =>
    if c = '>' then [] :: splitGt cs
    else
      match splitGt cs with
      | [] => [[c]]
      | h :: t => (c :: h) :: t

/-- Model of `raw.replace(/\s+Word$/i, "")`: if `s` ends (case-insensitively)
with `word` preceded by at least one whitespace character, remove that
trailing whitespace run and the word; otherwise return `s` unchanged. -/
def stripTrailingWord (s word : String) : String :=
  if (word.data.map Char.toLower).reverse.isPrefixOf ((s.data.map Char.toLower).reverse) then
    let t := s.data.take (s.data.length - word.data.length)
    let t2 := dropTrailing Char.isWhitespace t
    if t2.length < t.length then ⟨t2⟩ else s
  else s

/-- `parseAncestry` from the source: split on `>`, take the first two parts,
trim them, strip a trailing case-insensitive "Allotment" / "Pasture" word,
and trim again.  A falsy (empty) input yields two empty strings. -/
def parseAncestry (ancestry : String) : Ancestry :=
  if ancestry = "" then ⟨"", ""⟩
  else
    let parts := (splitGt ancestry.data).map (fun l => (⟨l⟩ : String))
    let allotmentRaw := jsTrim (parts.getD 0 "")
    let pastureRaw := jsTrim (parts.getD 1 "")
    ⟨jsTrim (stripTrailingWord allotmentRaw "Allotment"),
     jsTrim (stripTrailingWord pastureRaw "Pasture")⟩

/-- JavaScript line terminators (not matched by `.` in a regex without the
`s` flag; `$` without `m` only matches at the very end of the input). -/
def isLineTerminator (c : Char) : Bool :=
  c = '\n' || c = '\r' || c = Char.ofNat 0x2028 || c = Char.ofNat 0x2029

/-- `extractKA` from the source: the first match of `/[A-Za-z].*$/`.
Because `.` does not cross a line terminator and `$` (without the `m` flag)
only matches at the end of the input, a successful match must start at or
after the last line terminator; the match is the substring of the final line
starting at its first ASCII-alphabetic character.  For inputs without line
terminators this is the substring from the first alphabetic character to the
end.  No match (or a falsy input) yields `""`. -/
def extractKA (siteId : String) : String :=
  let finalLine := ((siteId.data.reverse.takeWhile (fun c => !isLineTerminator c)).reverse)
  ⟨finalLine.dropWhile (fun c => !c.isAlpha)⟩

/-- `Math.round` on exact rationals: nearest integer, ties toward `+∞`. -/
def mathRound (q : ℚ) : ℤ := ⌊q + 1/2⌋

/-- The source's `round(value, digits)` (named `toRoundedNumber` in the
spec): `none` models the `""` sentinel returned for a non-finite coerced
value; otherwise scale by `10^digits`, apply `Math.round`, and scale back. -/
def roundJS (value : Option ℚ) (digits : ℕ) : Option ℚ :=
  match value with
  | none => none
  | some n => some ((mathRound (n * 10 ^ digits) : ℚ) / 10 ^ digits)

/-- A processed Comparative Yield row: the four normalized fields appended
by `handleUploadRaw` plus the numeric yield value `nValue` (already coerced;
`none` models a non-finite `asNumber` result).  Opaque pass-through columns
are irrelevant to every computation modelled here and are omitted. -/
structure CYRow where
  DATE : String
  ALLOTMENT : String
  PASTURE : String
  KA : String
  nValue : Option ℚ
deriving DecidableEq

/-- A calibration ("production") row as consumed by `computeSlopesByKA`:
`KA`, and the coerced `BAG #` and `NET WT.` columns (`none` = non-finite). -/
structure ProdRow where
  KA : String
  bag : Option ℚ
  netWeight : Option ℚ
deriving DecidableEq

/-- The per-KA accumulator record `{ sumXY, sumX2, count }`. -/
structure KAStats where
  sumXY : ℚ
  sumX2 : ℚ
  count : ℕ
deriving DecidableEq

/-- One iteration of the accumulation loop in `computeSlopesByKA`: skip the
row if `KA` is falsy or either number is non-finite, otherwise update the
entry for its `KA` (creating `{0, 0, 0}` first if absent). -/
def slopeStep (acc : String → Option KAStats) (r : ProdRow) : String → Option KAStats :=
  match r.bag, r.netWeight with
  | some x, some y =>
    if r.KA = "" then acc
    else fun ka =>
      if ka = r.KA then
        let s := (acc r.KA).getD ⟨0, 0, 0⟩
        some ⟨s.sumXY + x * y, s.sumX2 + x * x, s.count + 1⟩
      else acc ka
  | _, _ => acc

/-- The `perKA` object of `computeSlopesByKA` after the accumulation loop. -/
def perKA (rows : List ProdRow) : String → Option KAStats :=
  rows.foldl slopeStep (fun _ => none)

/-- `computeSlopesByKA` from the source: the slope table, mapping a KA to
`sumXY / sumX2` when it has an entry with `sumX2 > 0`, and absent (`none`)
otherwise. -/
def computeSlopesByKA (rows : List ProdRow) (ka : String) : Option ℚ :=
  match perKA rows ka with
  | some s => if 0 < s.sumX2 then some (s.sumXY / s.sumX2) else none
  | none => none

/-- The composite key template literal `` `${DATE}||${ALLOTMENT}||${PASTURE}||${KA}` ``. -/
def groupKey (d a p k : String) : String :=
  d ++ "||" ++ a ++ "||" ++ p ++ "||" ++ k

/-- A template row emitted by `makeProductionTemplateRows`; the four
measurement columns are the empty-string placeholders. -/
structure TemplateRow where
  DATE : String
  ALLOTMENT : String
  PASTURE : String
  KA : String
  bagNumber : ℕ
  gw : String
  dryWt : String
  minusBag : String
  netWt : String
deriving DecidableEq

/-- One iteration of the generation loop of `makeProductionTemplateRows`,
acting on the state (`seen` set as an insertion-ordered duplicate-free
list, emitted rows): skip rows with falsy `DATE` or `KA`, skip keys already
seen, otherwise record the key and emit one row per bag number. -/
def templStep (st : List String × List TemplateRow) (r : CYRow) :
    List String × List TemplateRow :=
  if r.DATE = "" ∨ r.KA = "" then st
  else
    let key := groupKey r.DATE r.ALLOTMENT r.PASTURE r.KA
    if key ∈ st.1 then st
    else (st.1 ++ [key],
      st.2 ++ BAG_NUMBERS.map (fun bag =>
        ⟨r.DATE, r.ALLOTMENT, r.PASTURE, r.KA, bag, "", "", "", ""⟩))

/-- Model of `a.localeCompare(b)`: a three-way comparison in the
lexicographic linear order on `String`. -/
def localeCmp (a b : String) : ℤ :=
  if a < b then -1 else if b < a then 1 else 0

/-- The four-field comparator shared by both sort callbacks in the source:
compare `ALLOTMENT`, then `PASTURE`, then `DATE`, then `KA`, each step used
only when the previous fields differ. -/
def cmp4 (a1 p1 d1 k1 a2 p2 d2 k2 : String) : ℤ :=
  if a1 ≠ a2 then localeCmp a1 a2
  else if p1 ≠ p2 then localeCmp p1 p2
  else if d1 ≠ d2 then localeCmp d1 d2
  else localeCmp k1 k2

/-- The template sort callback as a boolean "a stays before b" relation
(comparator result `≤ 0`); `Array.prototype.sort` is modelled by the stable
`List.mergeSort` with this relation. -/
def templateLe (a b : TemplateRow) : Bool :=
  decide (cmp4 a.ALLOTMENT a.PASTURE a.DATE a.KA b.ALLOTMENT b.PASTURE b.DATE b.KA ≤ 0)

/-- `makeProductionTemplateRows` from the source: run the generation loop
over the processed CY rows, then sort by the comparator. -/
def makeProductionTemplateRows (cyRowsProcessed : List CYRow) : List TemplateRow :=
  ((cyRowsProcessed.foldl templStep ([], [])).2).mergeSort templateLe

/-- A group record of `computeProductionFromCY`: the four fields captured
from the group's first row plus the running `sumN` and `count`. -/
structure Group where
  DATE : String
  ALLOTMENT : String
  PASTURE : String
  KA : String
  sumN : ℚ
  count : ℕ
deriving DecidableEq

/-- One iteration of the grouping loop of `computeProductionFromCY` over the
insertion-ordered association list modelling the `groups` object: skip rows
with falsy `KA` or `DATE` or a non-finite `nValue`; otherwise create the
group (fields from this row, sums zero) if absent and add the row into it. -/
def cyStep (gs : List (String × Group)) (r : CYRow) : List (String × Group) :=
  if r.KA = "" ∨ r.DATE = "" then gs
  else
    match r.nValue with
    | none => gs
    | some v =>
      let key := groupKey r.DATE r.ALLOTMENT r.PASTURE r.KA
      if gs.any (fun p => p.1 = key) then
        gs.map (fun p =>
          if p.1 = key then
            (p.1, { p.2 with sumN := p.2.sumN + v, count := p.2.count + 1 })
          else p)
      else gs ++ [(key, ⟨r.DATE, r.ALLOTMENT, r.PASTURE, r.KA, v, 1⟩)]

/-- The `groups` object of `computeProductionFromCY` after the grouping
loop, in insertion order (`Object.values` iteration order: none of the keys
is an integer-like string, since each contains the `||` separator). -/
def buildGroups (cyRowsProcessed : List CYRow) : List (String × Group) :=
  cyRowsProcessed.foldl cyStep []

/-- An output production row; the three numeric columns carry the results
of `round` (`none` = the empty-string sentinel, which never occurs here). -/
structure OutRow where
  DATE : String
  ALLOTMENT : String
  PASTURE : String
  KA : String
  avgN : Option ℚ
  slope : Option ℚ
  production : Option ℚ
deriving DecidableEq

/-- `missingKAs.add(ka)` on the JS `Set`, modelled as an insertion-ordered
duplicate-free list. -/
def addMissing (missing : List String) (ka : String) : List String :=
  if ka ∈ missing then missing else missing ++ [ka]

/-- The output row built for a group `g` with slope `s`. -/
def mkOutRow (g : Group) (s : ℚ) : OutRow :=
  let avgN : ℚ := g.sumN / (g.count : ℚ)
  { DATE := g.DATE, ALLOTMENT := g.ALLOTMENT, PASTURE := g.PASTURE, KA := g.KA,
    avgN := roundJS (some avgN) 3,
    slope := roundJS (some s) 4,
    production := roundJS (some (s * avgN * LBS_PER_ACRE_FACTOR)) 2 }

/-- One iteration of the output loop of `computeProductionFromCY` on the
state (emitted rows, missing-KA set): skip empty groups, record the KA as
missing when the slope table has no (finite) entry, otherwise emit the row. -/
def outStep (slopes : String → Option ℚ) (st : List OutRow × List String)
    (g : Group) : List OutRow × List String :=
  if g.count = 0 then st
  else
    match slopes g.KA with
    | none => (st.1, addMissing st.2 g.KA)
    | some s => (st.1 ++ [mkOutRow g s], st.2)

/-- The output-row sort callback, identical to the template one. -/
def outLe (a b : OutRow) : Bool :=
  decide (cmp4 a.ALLOTMENT a.PASTURE a.DATE a.KA b.ALLOTMENT b.PASTURE b.DATE b.KA ≤ 0)

/-- The result record of `computeProductionFromCY`. -/
structure ProductionResult where
  rows : List OutRow
  missingKAs : List String
  slopes : String → Option ℚ

/-- `computeProductionFromCY` from the source: fit the slopes, group the CY
rows, run the output loop over the groups in insertion order, sort the
output rows, and return them with the missing-KA list and the slope table. -/
def computeProductionFromCY (cyRowsProcessed : List CYRow) (prodRows : List ProdRow) :
    ProductionResult :=
  let slopes := computeSlopesByKA prodRows
  let st := (buildGroups cyRowsProcessed).foldl (fun st p => outStep slopes st p.2) ([], [])
  { rows := st.1.mergeSort outLe, missingKAs := st.2, slopes := slopes }

/-- Modelled from the spec (for comparison with `extractKA`): "returns the
substring starting at the first alphabetic character through the end of the
identifier", empty when no alphabetic character exists. -/
def extractUnitCodeSpec (s : String) : String :=
  ⟨s.data.dropWhile (fun c => !c.isAlpha)⟩

/-- Modelled from the spec (for comparison with `roundJS`): rounding
half-away-from-zero to the given decimal count using power-of-ten scaling. -/
def roundHalfAwayFromZero (q : ℚ) (digits : ℕ) : ℚ :=
  let scaled := q * 10 ^ digits
  ((if scaled < 0 then -⌊-scaled + 1/2⌋ else ⌊scaled + 1/2⌋ : ℤ) : ℚ) / 10 ^ digits

/-- The (bag, net weight) pairs of a unit's eligible calibration rows: rows
whose `KA` equals the given unit code with both numbers finite. -/
def eligiblePairs (rows : List ProdRow) (ka : String) : List (ℚ × ℚ) :=
  rows.filterMap (fun r =>
    match r.bag, r.netWeight with
    | some x, some y => if r.KA = ka then some (x, y) else none
    | _, _ => none)

/-- `Σ (bagNumber × netWeight)` over a unit's eligible rows. -/
def specSumXY (rows : List ProdRow) (ka : String) : ℚ :=
  ((eligiblePairs rows ka).map (fun p => p.1 * p.2)).sum

/-- `Σ (bagNumber²)` over a unit's eligible rows. -/
def specSumX2 (rows : List ProdRow) (ka : String) : ℚ :=
  ((eligiblePairs rows ka).map (fun p => p.1 * p.1)).sum

/-- Ascending order on the sort key (allotment, then pasture, then date,
then ka), spelled out: the lexicographic comparison the spec describes. -/
def lexLe4 (a1 p1 d1 k1 a2 p2 d2 k2 : String) : Prop :=
  a1 < a2 ∨ (a1 = a2 ∧ (p1 < p2 ∨ (p1 = p2 ∧ (d1 < d2 ∨ (d1 = d2 ∧ k1 ≤ k2)))))

/-- Does a template row carry composite key `k` and bag number `b`? -/
def templMatch (k : String) (b : ℕ) (t : TemplateRow) : Bool :=
  (groupKey t.DATE t.ALLOTMENT t.PASTURE t.KA == k) && (t.bagNumber == b)

/-- The output loop body with the `if (!g.count) return;` guard removed
(used to state that the guard is unreachable). -/
def outStepNoGuard (slopes : String → Option ℚ) (st : List OutRow × List String)
    (g : Group) : List OutRow × List String :=
  match slopes g.KA with
  | none => (st.1, addMissing st.2 g.KA)
  | some s => (st.1 ++ [mkOutRow g s], st.2)

/-- `computeProductionFromCY` with the zero-count guard removed. -/
def computeProductionFromCYNoGuard (cyRowsProcessed : List CYRow) (prodRows : List ProdRow) :
    ProductionResult :=
  let slopes := computeSlopesByKA prodRows
  let st := (buildGroups cyRowsProcessed).foldl
    (fun st p => outStepNoGuard slopes st p.2) ([], [])
  { rows := st.1.mergeSort outLe, missingKAs := st.2, slopes := slopes }

/-! ## Field Normalizer claims -/

lemma splitGt_no_sep : ∀ l : List Char, '>' ∉ l → splitGt l = [l] := by
  intro l
  induction l with
  | nil => intro _; rfl
  | cons c cs ih =>
    intro h
    have hc : ¬ c = '>' := fun hc => h (hc ▸ List.mem_cons_self c cs)
    have hcs : '>' ∉ cs := fun hm => h (List.mem_cons_of_mem c hm)
    simp only [splitGt, if_neg hc, ih hcs]

/-- Claim C9: `normalizeDate` is idempotent — its result is always a string,
strings pass through unchanged, so feeding the result back in (as the string
it is) returns it unchanged; in particular a canonical `YYYY-MM-DD` string
passes through as-is. -/
theorem C9_normalizeDate_idempotent :
    (∀ x : JSDateInput, normalizeDate (JSDateInput.str (normalizeDate x)) = normalizeDate x) ∧
    (∀ s : String, normalizeDate (JSDateInput.str s) = s) :=
  ⟨fun _ => rfl, fun _ => rfl⟩

/-- Claim C7: `parseAncestry` splits on `>` keeping at most the first two
segments, trims, strips trailing case-insensitive "Allotment" / "Pasture"
words, yields empty strings for missing segments and `("", "")` for empty
input; the named example parses to ("Turkey Creek", "Turkey Creek"). -/
theorem C7_parseAncestry :
    parseAncestry "Turkey Creek Allotment > Turkey Creek Pasture" =
      ⟨"Turkey Creek", "Turkey Creek"⟩ ∧
    parseAncestry "" = ⟨"", ""⟩ ∧
    parseAncestry "  A  " = ⟨"A", ""⟩ ∧
    parseAncestry "X ALLOTMENT > Y pasture" = ⟨"X", "Y"⟩ ∧
    parseAncestry "A > B Pasture > C" = ⟨"A", "B"⟩ ∧
    (∀ s : String, '>' ∉ s.data → (parseAncestry s).pasture = "") := by
  refine ⟨by decide, by decide, by decide, by decide, by decide, ?_⟩
  intro s hs
  by_cases h : s = ""
  · subst h; rfl
  · simp only [parseAncestry, if_neg h, splitGt_no_sep s.data hs, List.map_cons,
      List.map_nil, List.getD_cons_succ, List.getD_nil]
    decide

/-- Witness for C7 at a concrete separator-free input. -/
theorem C7_parseAncestry_witness :
    ('>' ∉ ("Foo Allotment" : String).data) ∧
    (parseAncestry "Foo Allotment").pasture = "" :=
  ⟨by decide, C7_parseAncestry.2.2.2.2.2 "Foo Allotment" (by decide)⟩

/-- Counterexample to claim C8 as stated: for the identifier `"a\nb"` the
first alphabetic character is `a`, so the claimed result is the whole
string, but the regex `/[A-Za-z].*$/` cannot match across the line
terminator (`.` does not match `\n` and `$` anchors at the very end), so
the code returns `"b"`. -/
theorem C8_extractKA_counterexample :
    extractKA "a\nb" = "b" ∧
    extractUnitCodeSpec "a\nb" = "a\nb" ∧
    ("b" : String) ≠ "a\nb" := by
  refine ⟨by decide, by decide, by decide⟩

/-- Claim C8 (amended): on identifiers free of line terminators, `extractKA`
returns the substring from the first ASCII-alphabetic character to the end
(and `""` when no alphabetic character exists); both named examples hold. -/
theorem C8_extractKA :
    (∀ s : String, (∀ c ∈ s.data, isLineTerminator c = false) →
      extractKA s = extractUnitCodeSpec s) ∧
    (∀ s : String, (∀ c ∈ s.data, c.isAlpha = false) → extractKA s = "") ∧
    extractKA "03-01-01-00112-001-C3" = "C3" ∧
    extractKA "00112-001" = "" := by
  refine ⟨?_, ?_, by decide, by decide⟩
  · intro s h
    have : s.data.reverse.takeWhile (fun c => !isLineTerminator c) = s.data.reverse := by
      rw [List.takeWhile_eq_self_iff]
      intro c hc
      simp [h c (List.mem_reverse.mp hc)]
    simp only [extractKA, extractUnitCodeSpec, this, List.reverse_reverse]
  · intro s h
    have : ((s.data.reverse.takeWhile (fun c => !isLineTerminator c)).reverse).dropWhile
        (fun c => !c.isAlpha) = [] := by
      rw [List.dropWhile_eq_nil_iff]
      intro c hc
      have hc2 : c ∈ s.data := by
        have := (List.takeWhile_sublist (l := s.data.reverse)
          (fun c => !isLineTerminator c)).subset (List.mem_reverse.mp hc)
        exact List.mem_reverse.mp this
      simp [h c hc2]
    simp only [extractKA, this]

/-- Witness for C8 at concrete line-terminator-free inputs. -/
theorem C8_extractKA_witness :
    (∀ c ∈ ("ab1" : String).data, isLineTerminator c = false) ∧
    extractKA "ab1" = extractUnitCodeSpec "ab1" ∧
    (∀ c ∈ ("0-1" : String).data, c.isAlpha = false) ∧
    extractKA "0-1" = "" :=
  ⟨by decide, C8_extractKA.1 "ab1" (by decide), by decide, C8_extractKA.2.1 "0-1" (by decide)⟩

/-- Counterexample to claim C4 as stated: `Math.round` resolves ties toward
`+∞`, not away from zero, so at value `-1/2` (digits 0) the code yields `0`
while the half-away-from-zero rule yields `-1`. -/
theorem C4_round_counterexample :
    roundJS (some (-(1 : ℚ)/2)) 0 = some 0 ∧
    roundHalfAwayFromZero (-(1 : ℚ)/2) 0 = -1 ∧
    (some (0 : ℚ) : Option ℚ) ≠ some (-1 : ℚ) := by
  refine ⟨?_, ?_, by norm_num⟩
  · norm_num [roundJS, mathRound]
  · norm_num [roundHalfAwayFromZero]

/-- Claim C4 (amended): `round` returns the empty-string sentinel (`none`)
for a non-finite value and otherwise rounds half-up (ties toward `+∞`) to
the given decimal count by power-of-ten scaling; this agrees with the
half-away-from-zero rule on non-negative inputs, the function is
deterministic, and `round(1115.2245, 2) = 1115.22`. -/
theorem C4_round_half_up :
    (∀ d : ℕ, roundJS none d = none) ∧
    (∀ (q : ℚ) (d : ℕ), roundJS (some q) d = some ((mathRound (q * 10 ^ d) : ℚ) / 10 ^ d)) ∧
    (∀ (q : ℚ) (d : ℕ), 0 ≤ q → roundJS (some q) d = some (roundHalfAwayFromZero q d)) ∧
    (∀ (v : Option ℚ) (d : ℕ), roundJS v d = roundJS v d) ∧
    roundJS (some (1115.2245 : ℚ)) 2 = some 1115.22 := by
  refine ⟨fun _ => rfl, fun _ _ => rfl, ?_, fun _ _ => rfl, by norm_num [roundJS, mathRound]⟩
  intro q d hq
  have hsc : ¬ (q * 10 ^ d < 0) := not_lt.mpr (mul_nonneg hq (by positivity))
  simp only [roundJS, mathRound, roundHalfAwayFromZero, if_neg hsc]

/-- Witness for C4 at a concrete non-negative input. -/
theorem C4_round_half_up_witness :
    (0 : ℚ) ≤ 2 ∧ roundJS (some (2 : ℚ)) 0 = some (roundHalfAwayFromZero 2 0) :=
  ⟨by norm_num, C4_round_half_up.2.2.1 2 0 (by norm_num)⟩

/-! ## Calibration Engine claims -/

lemma perKA_foldl (ka : String) (hka : ka ≠ "") :
    ∀ (rows : List ProdRow) (acc : String → Option KAStats),
      (((rows.foldl slopeStep acc) ka).getD ⟨0, 0, 0⟩).sumXY
          = ((acc ka).getD ⟨0, 0, 0⟩).sumXY + specSumXY rows ka ∧
      (((rows.foldl slopeStep acc) ka).getD ⟨0, 0, 0⟩).sumX2
          = ((acc ka).getD ⟨0, 0, 0⟩).sumX2 + specSumX2 rows ka ∧
      ((rows.foldl slopeStep acc) ka).isSome
          = ((acc ka).isSome || !(eligiblePairs rows ka).isEmpty) := by
  intro rows
  induction rows with
  | nil =>
    intro acc
    refine ⟨?_, ?_, ?_⟩ <;>
      simp [specSumXY, specSumX2, eligiblePairs]
  | cons r rows ih =>
    intro acc
    rcases hb : r.bag with _ | x
    · have hstep : slopeStep acc r = acc := by simp [slopeStep, hb]
      have hpairs : eligiblePairs (r :: rows) ka = eligiblePairs rows ka := by
        simp [eligiblePairs, List.filterMap_cons, hb]
      simpa [List.foldl_cons, hstep, specSumXY, specSumX2, hpairs] using ih acc
    · rcases hn : r.netWeight with _ | y
      · have hstep : slopeStep acc r = acc := by simp [slopeStep, hb, hn]
        have hpairs : eligiblePairs (r :: rows) ka = eligiblePairs rows ka := by
          simp [eligiblePairs, List.filterMap_cons, hb, hn]
        simpa [List.foldl_cons, hstep, specSumXY, specSumX2, hpairs] using ih acc
      · by_cases hKA : r.KA = ""
        · have hstep : slopeStep acc r = acc := by simp [slopeStep, hb, hn, hKA]
          have hne : ¬ (r.KA = ka) := fun h => hka (h ▸ hKA)
          have hpairs : eligiblePairs (r :: rows) ka = eligiblePairs rows ka := by
            simp [eligiblePairs, List.filterMap_cons, hb, hn, hne]
          simpa [List.foldl_cons, hstep, specSumXY, specSumX2, hpairs] using ih acc
        · by_cases hk : ka = r.KA
          · have hstep : (slopeStep acc r) ka
                = some ⟨((acc ka).getD ⟨0, 0, 0⟩).sumXY + x * y,
                        ((acc ka).getD ⟨0, 0, 0⟩).sumX2 + x * x,
                        ((acc ka).getD ⟨0, 0, 0⟩).count + 1⟩ := by
              simp [slopeStep, hb, hn, hKA, hk]
            have hpairs : eligiblePairs (r :: rows) ka = (x, y) :: eligiblePairs rows ka := by
              simp [eligiblePairs, List.filterMap_cons, hb, hn, hk.symm]
            obtain ⟨ih1, ih2, ih3⟩ := ih (slopeStep acc r)
            refine ⟨?_, ?_, ?_⟩
            · rw [List.foldl_cons, ih1, hstep]
              simp [specSumXY, hpairs]
              ring
            · rw [List.foldl_cons, ih2, hstep]
              simp [specSumX2, hpairs]
              ring
            · rw [List.foldl_cons, ih3, hstep]
              simp [hpairs]
          · have hstep : (slopeStep acc r) ka = acc ka := by
              simp [slopeStep, hb, hn, hKA, hk]
            have hne : ¬ (r.KA = ka) := fun h => hk h.symm
            have hpairs : eligiblePairs (r :: rows) ka = eligiblePairs rows ka := by
              simp [eligiblePairs, List.filterMap_cons, hb, hn, hne]
            obtain ⟨ih1, ih2, ih3⟩ := ih (slopeStep acc r)
            refine ⟨?_, ?_, ?_⟩
            · rw [List.foldl_cons, ih1, hstep]
              simp [specSumXY, hpairs]
            · rw [List.foldl_cons, ih2, hstep]
              simp [specSumX2, hpairs]
            · rw [List.foldl_cons, ih3, hstep, hpairs]

/-- Claim C3: the slope table maps a (non-empty) unit code to
`ΣXY / ΣX²` over its eligible rows, with an entry exactly when `ΣX² > 0`
(absent otherwise); the three-row example fits slope 10 exactly. -/
theorem C3_computeSlopesByKA :
    (∀ (rows : List ProdRow) (ka : String), ka ≠ "" →
      computeSlopesByKA rows ka =
        if 0 < specSumX2 rows ka
        then some (specSumXY rows ka / specSumX2 rows ka) else none) ∧
    computeSlopesByKA
      [⟨"U", some 1, some 10⟩, ⟨"U", some 3, some 30⟩, ⟨"U", some 5, some 50⟩] "U"
      = some 10 := by
  constructor
  · intro rows ka hka
    obtain ⟨h1, h2, h3⟩ := perKA_foldl ka hka rows (fun _ => none)
    simp only [Option.getD_none] at h1 h2 h3
    by_cases he : eligiblePairs rows ka = []
    · have hnone : perKA rows ka = none := by
        have : (perKA rows ka).isSome = false := by
          simpa [perKA, he] using h3
        exact Option.not_isSome_iff_eq_none.mp (by simp [this])
      simp [computeSlopesByKA, hnone, specSumX2, he]
    · have he2 : (eligiblePairs rows ka).isEmpty = false := by
        rcases hE : eligiblePairs rows ka with _ | ⟨a, l⟩
        · exact absurd hE he
        · rfl
      have hsome : (perKA rows ka).isSome = true := by
        simpa [perKA, he2] using h3
      obtain ⟨s, hs⟩ := Option.isSome_iff_exists.mp hsome
      have hXY : s.sumXY = specSumXY rows ka := by
        have := h1
        rw [show rows.foldl slopeStep (fun _ => none) ka = perKA rows ka from rfl, hs] at this
        simpa using this
      have hX2 : s.sumX2 = specSumX2 rows ka := by
        have := h2
        rw [show rows.foldl slopeStep (fun _ => none) ka = perKA rows ka from rfl, hs] at this
        simpa using this
      simp only [computeSlopesByKA, hs, hXY, hX2]
  · simp [computeSlopesByKA, perKA, slopeStep]
    norm_num

/-- Witness for C3 at the concrete three-row calibration input. -/
theorem C3_computeSlopesByKA_witness :
    (("U" : String) ≠ "") ∧
    computeSlopesByKA
      [⟨"U", some 1, some 10⟩, ⟨"U", some 3, some 30⟩, ⟨"U", some 5, some 50⟩] "U"
      = if 0 < specSumX2
            [⟨"U", some 1, some 10⟩, ⟨"U", some 3, some 30⟩, ⟨"U", some 5, some 50⟩] "U"
        then some (specSumXY
            [⟨"U", some 1, some 10⟩, ⟨"U", some 3, some 30⟩, ⟨"U", some 5, some 50⟩] "U"
          / specSumX2
            [⟨"U", some 1, some 10⟩, ⟨"U", some 3, some 30⟩, ⟨"U", some 5, some 50⟩] "U")
        else none :=
  ⟨by decide, C3_computeSlopesByKA.1 _ "U" (by decide)⟩

/-! ## Production Aggregator claims -/

lemma cyStep_count (gs : List (String × Group)) (r : CYRow)
    (h : ∀ p ∈ gs, 1 ≤ p.2.count) : ∀ p ∈ cyStep gs r, 1 ≤ p.2.count := by
  intro p hp
  unfold cyStep at hp
  split at hp
  · exact h p hp
  · split at hp
    · exact h p hp
    · dsimp only [] at hp
      split at hp
      · obtain ⟨q, hq, rfl⟩ := List.mem_map.mp hp
        split
        · simp only []
          omega
        · exact h q hq
      · rcases List.mem_append.mp hp with h1 | h2
        · exact h p h1
        · rw [List.mem_singleton] at h2
          rw [h2]

lemma buildGroups_count_aux :
    ∀ (cy : List CYRow) (gs : List (String × Group)),
      (∀ p ∈ gs, 1 ≤ p.2.count) → ∀ p ∈ cy.foldl cyStep gs, 1 ≤ p.2.count := by
  intro cy
  induction cy with
  | nil => intro gs h; simpa using h
  | cons r cy ih => intro gs h; exact ih _ (cyStep_count gs r h)

lemma buildGroups_count {cy : List CYRow} {p : String × Group}
    (hp : p ∈ buildGroups cy) : 1 ≤ p.2.count :=
  buildGroups_count_aux cy [] (by simp) p hp

lemma outStep_zero (slopes : String → Option ℚ) (st : List OutRow × List String)
    (g : Group) (hc : g.count = 0) : outStep slopes st g = st := by
  unfold outStep
  rw [if_pos hc]

lemma outStep_none (slopes : String → Option ℚ) (st : List OutRow × List String)
    (g : Group) (hc : ¬ g.count = 0) (hs : slopes g.KA = none) :
    outStep slopes st g = (st.1, addMissing st.2 g.KA) := by
  unfold outStep
  rw [if_neg hc, hs]

lemma outStep_some (slopes : String → Option ℚ) (st : List OutRow × List String)
    (g : Group) (s : ℚ) (hc : ¬ g.count = 0) (hs : slopes g.KA = some s) :
    outStep slopes st g = (st.1 ++ [mkOutRow g s], st.2) := by
  unfold outStep
  rw [if_neg hc, hs]

lemma outStep_rows_mono (slopes : String → Option ℚ) (st : List OutRow × List String)
    (g : Group) : st.1 ⊆ (outStep slopes st g).1 := by
  by_cases hc : g.count = 0
  · rw [outStep_zero slopes st g hc]
    exact fun x h => h
  · rcases hs : slopes g.KA with _ | s
    · rw [outStep_none slopes st g hc hs]
      exact fun x h => h
    · rw [outStep_some slopes st g s hc hs]
      exact List.subset_append_left _ _

lemma addMissing_subset (m : List String) (ka : String) : m ⊆ addMissing m ka := by
  rw [addMissing]
  split
  · exact fun x h => h
  · exact List.subset_append_left _ _

lemma mem_addMissing_self (m : List String) (ka : String) : ka ∈ addMissing m ka := by
  rw [addMissing]
  split
  · assumption
  · simp

lemma outStep_missing_mono (slopes : String → Option ℚ) (st : List OutRow × List String)
    (g : Group) : st.2 ⊆ (outStep slopes st g).2 := by
  by_cases hc : g.count = 0
  · rw [outStep_zero slopes st g hc]
    exact fun x h => h
  · rcases hs : slopes g.KA with _ | s
    · rw [outStep_none slopes st g hc hs]
      exact addMissing_subset _ _
    · rw [outStep_some slopes st g s hc hs]
      exact fun x h => h

lemma foldl_outStep_rows_mono (slopes : String → Option ℚ) :
    ∀ (gs : List (String × Group)) (st : List OutRow × List String),
      st.1 ⊆ (gs.foldl (fun st p => outStep slopes st p.2) st).1 := by
  intro gs
  induction gs with
  | nil => intro st; exact fun x h => h
  | cons p gs ih =>
    intro st
    exact fun x h => ih _ (outStep_rows_mono slopes st p.2 h)

lemma foldl_outStep_missing_mono (slopes : String → Option ℚ) :
    ∀ (gs : List (String × Group)) (st : List OutRow × List String),
      st.2 ⊆ (gs.foldl (fun st p => outStep slopes st p.2) st).2 := by
  intro gs
  induction gs with
  | nil => intro st; exact fun x h => h
  | cons p gs ih =>
    intro st
    exact fun x h => ih _ (outStep_missing_mono slopes st p.2 h)

lemma mkOutRow_mem_foldl (slopes : String → Option ℚ) :
    ∀ (gs : List (String × Group)) (st : List OutRow × List String)
      (k : String) (g : Group) (s : ℚ),
      (k, g) ∈ gs → slopes g.KA = some s → g.count ≠ 0 →
      mkOutRow g s ∈ (gs.foldl (fun st p => outStep slopes st p.2) st).1 := by
  intro gs
  induction gs with
  | nil => intro st k g s h; cases h
  | cons p gs ih =>
    intro st k g s hmem hs hc
    rcases List.mem_cons.mp hmem with heq | htail
    · have hg : p.2 = g := by rw [← heq]
      have hbase : mkOutRow g s ∈ (outStep slopes st p.2).1 := by
        rw [hg, outStep_some slopes st g s hc hs]
        exact List.mem_append_right _ (by simp)
      exact foldl_outStep_rows_mono slopes gs _ hbase
    · exact ih _ k g s htail hs hc

lemma missing_mem_foldl (slopes : String → Option ℚ) :
    ∀ (gs : List (String × Group)) (st : List OutRow × List String)
      (k : String) (g : Group),
      (k, g) ∈ gs → slopes g.KA = none → g.count ≠ 0 →
      g.KA ∈ (gs.foldl (fun st p => outStep slopes st p.2) st).2 := by
  intro gs
  induction gs with
  | nil => intro st k g h; cases h
  | cons p gs ih =>
    intro st k g hmem hs hc
    rcases List.mem_cons.mp hmem with heq | htail
    · have hg : p.2 = g := by rw [← heq]
      have hbase : g.KA ∈ (outStep slopes st p.2).2 := by
        rw [hg, outStep_none slopes st g hc hs]
        exact mem_addMissing_self _ _
      exact foldl_outStep_missing_mono slopes gs _ hbase
    · exact ih _ k g htail hs hc

lemma foldl_rows_isSome (slopes : String → Option ℚ) :
    ∀ (gs : List (String × Group)) (st : List OutRow × List String),
      (∀ x ∈ st.1, (slopes x.KA).isSome) →
      ∀ x ∈ (gs.foldl (fun st p => outStep slopes st p.2) st).1, (slopes x.KA).isSome := by
  intro gs
  induction gs with
  | nil => intro st h; simpa using h
  | cons p gs ih =>
    intro st h
    have hstep : ∀ x ∈ (outStep slopes st p.2).1, (slopes x.KA).isSome := by
      intro x hx
      by_cases hc : p.2.count = 0
      · rw [outStep_zero slopes st p.2 hc] at hx
        exact h x hx
      · rcases hs : slopes p.2.KA with _ | s
        · rw [outStep_none slopes st p.2 hc hs] at hx
          exact h x hx
        · rw [outStep_some slopes st p.2 s hc hs] at hx
          rcases List.mem_append.mp hx with h1 | h2
          · exact h x h1
          · have hx2 : x = mkOutRow p.2 s := by simpa using h2
            rw [hx2]
            simp [mkOutRow, hs]
    exact ih (outStep slopes st p.2) hstep

/-- Claim C1: every yield group whose unit code has a fitted slope `s`
produces an output row carrying the group's four key fields, the average
yield value rounded to 3 decimals, the slope rounded to 4 decimals, and
`slope × avgYieldValue × 55.7612` rounded to 2 decimals; in particular
slope 10 with average yield value 2.0 yields production value 1115.22. -/
theorem C1_production_formula :
    (∀ (cy : List CYRow) (prodRows : List ProdRow) (k : String) (g : Group) (s : ℚ),
      (k, g) ∈ buildGroups cy →
      computeSlopesByKA prodRows g.KA = some s →
      ∃ row ∈ (computeProductionFromCY cy prodRows).rows,
        row.DATE = g.DATE ∧ row.ALLOTMENT = g.ALLOTMENT ∧ row.PASTURE = g.PASTURE ∧
        row.KA = g.KA ∧
        row.avgN = roundJS (some (g.sumN / (g.count : ℚ))) 3 ∧
        row.slope = roundJS (some s) 4 ∧
        row.production =
          roundJS (some (s * (g.sumN / (g.count : ℚ)) * LBS_PER_ACRE_FACTOR)) 2) ∧
    (computeProductionFromCY
        [⟨"2025-01-01", "A", "P", "U", some 2⟩]
        [⟨"U", some 1, some 10⟩, ⟨"U", some 3, some 30⟩, ⟨"U", some 5, some 50⟩]).rows
      = [⟨"2025-01-01", "A", "P", "U", some 2, some 10, some 1115.22⟩] := by
  constructor
  · intro cy prodRows k g s hmem hs
    have hc : g.count ≠ 0 := by
      have h1 : 1 ≤ g.count := buildGroups_count hmem
      omega
    refine ⟨mkOutRow g s, ?_, rfl, rfl, rfl, rfl, rfl, rfl, rfl⟩
    show mkOutRow g s ∈ (computeProductionFromCY cy prodRows).rows
    simp only [computeProductionFromCY, List.mem_mergeSort]
    exact mkOutRow_mem_foldl _ _ _ k g s hmem hs hc
  · simp [computeProductionFromCY, buildGroups, computeSlopesByKA, perKA, cyStep,
      slopeStep, groupKey, outStep, mkOutRow, addMissing, roundJS, mathRound,
      LBS_PER_ACRE_FACTOR]
    norm_num

/-- Witness for C1 at the concrete one-group, slope-10 input. -/
theorem C1_production_formula_witness :
    ∃ row ∈ (computeProductionFromCY
        [⟨"2025-01-01", "A", "P", "U", some 2⟩]
        [⟨"U", some 1, some 10⟩, ⟨"U", some 3, some 30⟩, ⟨"U", some 5, some 50⟩]).rows,
      row.DATE = "2025-01-01" ∧ row.ALLOTMENT = "A" ∧ row.PASTURE = "P" ∧
      row.KA = "U" ∧
      row.avgN = roundJS (some ((2 : ℚ) / ((1 : ℕ) : ℚ))) 3 ∧
      row.slope = roundJS (some 10) 4 ∧
      row.production =
        roundJS (some (10 * ((2 : ℚ) / ((1 : ℕ) : ℚ)) * LBS_PER_ACRE_FACTOR)) 2 :=
  C1_production_formula.1
    [⟨"2025-01-01", "A", "P", "U", some 2⟩]
    [⟨"U", some 1, some 10⟩, ⟨"U", some 3, some 30⟩, ⟨"U", some 5, some 50⟩]
    (groupKey "2025-01-01" "A" "P" "U")
    ⟨"2025-01-01", "A", "P", "U", 2, 1⟩ 10
    (by simp [buildGroups, cyStep])
    (by simp [computeSlopesByKA, perKA, slopeStep]; norm_num)

/-- Counterexample to claim C2 as stated: the unit code `"X"` appears in
the yield data on a row with non-empty date and ka and has no slope entry,
yet the missing-calibration set comes back empty, because the row's yield
value is non-finite and so the row never forms a group. -/
theorem C2_missing_counterexample :
    (∃ r ∈ ([⟨"d", "a", "p", "X", none⟩] : List CYRow),
      r.KA = "X" ∧ r.DATE ≠ "" ∧ r.KA ≠ "") ∧
    computeSlopesByKA ([] : List ProdRow) "X" = none ∧
    (computeProductionFromCY [⟨"d", "a", "p", "X", none⟩] []).missingKAs = [] := by
  refine ⟨⟨⟨"d", "a", "p", "X", none⟩, by simp, rfl, by simp, by simp⟩, rfl, ?_⟩
  simp [computeProductionFromCY, buildGroups, cyStep]

/-- Claim C2 (amended): every unit code that is the KA of a yield group
(formed from rows with non-empty date and ka and a finite yield value) and
has no entry in the slope table is recorded in the missing-calibration set,
and no output row carries that unit code. -/
theorem C2_missing_calibration :
    ∀ (cy : List CYRow) (prodRows : List ProdRow) (k : String) (g : Group),
      (k, g) ∈ buildGroups cy →
      computeSlopesByKA prodRows g.KA = none →
      g.KA ∈ (computeProductionFromCY cy prodRows).missingKAs ∧
      ∀ row ∈ (computeProductionFromCY cy prodRows).rows, row.KA ≠ g.KA := by
  intro cy prodRows k g hmem hnone
  have hc : g.count ≠ 0 := by
    have h1 : 1 ≤ g.count := buildGroups_count hmem
    omega
  constructor
  · show g.KA ∈ (computeProductionFromCY cy prodRows).missingKAs
    simp only [computeProductionFromCY]
    exact missing_mem_foldl _ _ _ k g hmem hnone hc
  · intro row hrow hKA
    have hrow2 : row ∈ ((buildGroups cy).foldl
        (fun st p => outStep (computeSlopesByKA prodRows) st p.2) ([], [])).1 := by
      simpa [computeProductionFromCY, List.mem_mergeSort] using hrow
    have : (computeSlopesByKA prodRows row.KA).isSome :=
      foldl_rows_isSome _ _ _ (by simp) row hrow2
    rw [hKA, hnone] at this
    simp at this

/-- Witness for C2 at a concrete input with one group and no calibration. -/
theorem C2_missing_calibration_witness :
    ("X" : String) ∈ (computeProductionFromCY [⟨"d", "a", "p", "X", some 1⟩] []).missingKAs ∧
    ∀ row ∈ (computeProductionFromCY [⟨"d", "a", "p", "X", some 1⟩] []).rows,
      row.KA ≠ "X" :=
  C2_missing_calibration [⟨"d", "a", "p", "X", some 1⟩] []
    (groupKey "d" "a" "p" "X") ⟨"d", "a", "p", "X", 1, 1⟩
    (by simp [buildGroups, cyStep]) rfl

lemma foldl_outStep_eq_noGuard (slopes : String → Option ℚ) :
    ∀ (gs : List (String × Group)) (st : List OutRow × List String),
      (∀ p ∈ gs, p.2.count ≠ 0) →
      gs.foldl (fun st p => outStep slopes st p.2) st
        = gs.foldl (fun st p => outStepNoGuard slopes st p.2) st := by
  intro gs
  induction gs with
  | nil => intro st _; rfl
  | cons p gs ih =>
    intro st h
    have hp : p.2.count ≠ 0 := h p (List.mem_cons_self p gs)
    have hstep : outStep slopes st p.2 = outStepNoGuard slopes st p.2 := by
      rw [outStep, outStepNoGuard, if_neg hp]
    rw [List.foldl_cons, List.foldl_cons, hstep]
    exact ih _ (fun q hq => h q (List.mem_cons_of_mem p hq))

/-- Claim C10: every group reaching the averaging step has `count ≥ 1`
(a group record is only ever created together with its first contributing
row), so the zero-count guard in the output loop is unreachable: removing
it leaves `computeProductionFromCY` unchanged. -/
theorem C10_zero_count_guard :
    (∀ (cy : List CYRow) (p : String × Group), p ∈ buildGroups cy → 1 ≤ p.2.count) ∧
    (∀ (cy : List CYRow) (prodRows : List ProdRow),
      computeProductionFromCY cy prodRows = computeProductionFromCYNoGuard cy prodRows) := by
  constructor
  · intro cy p hp
    exact buildGroups_count hp
  · intro cy prodRows
    simp only [computeProductionFromCY, computeProductionFromCYNoGuard]
    rw [foldl_outStep_eq_noGuard _ _ _
      (fun p hp => by have := buildGroups_count hp; omega)]

/-- Witness for C10 at a concrete one-row input. -/
theorem C10_zero_count_guard_witness :
    1 ≤ ((groupKey "d" "a" "p" "k",
        (⟨"d", "a", "p", "k", 1, 1⟩ : Group)) : String × Group).2.count ∧
    computeProductionFromCY [⟨"d", "a", "p", "k", some 1⟩] []
      = computeProductionFromCYNoGuard [⟨"d", "a", "p", "k", some 1⟩] [] :=
  ⟨C10_zero_count_guard.1 [⟨"d", "a", "p", "k", some 1⟩] _ (by simp [buildGroups, cyStep]),
   C10_zero_count_guard.2 [⟨"d", "a", "p", "k", some 1⟩] []⟩

/-! ## Sort-order claim -/

lemma localeCmp_le_iff (a b : String) : localeCmp a b ≤ 0 ↔ a ≤ b := by
  unfold localeCmp
  split_ifs with h1 h2
  · simp [h1.le]
  · simp [not_le.mpr h2]
  · simp [not_lt.mp h2]

lemma step_le_iff (x y : String) (c : ℤ) (rest : Prop) (hc : c ≤ 0 ↔ rest) :
    (if x ≠ y then localeCmp x y else c) ≤ 0 ↔ (x < y ∨ (x = y ∧ rest)) := by
  by_cases h : x = y
  · subst h
    rw [if_neg (by simp)]
    simp [lt_irrefl, hc]
  · rw [if_pos h, localeCmp_le_iff]
    constructor
    · intro hle
      exact Or.inl (lt_of_le_of_ne hle h)
    · rintro (hlt | ⟨heq, -⟩)
      · exact le_of_lt hlt
      · exact absurd heq h

lemma cmp4_le_iff (a1 p1 d1 k1 a2 p2 d2 k2 : String) :
    cmp4 a1 p1 d1 k1 a2 p2 d2 k2 ≤ 0 ↔ lexLe4 a1 p1 d1 k1 a2 p2 d2 k2 := by
  unfold cmp4 lexLe4
  exact step_le_iff a1 a2 _ _
    (step_le_iff p1 p2 _ _
      (step_le_iff d1 d2 _ _ (localeCmp_le_iff k1 k2)))

lemma lexLe4_iff_toLex (a1 p1 d1 k1 a2 p2 d2 k2 : String) :
    lexLe4 a1 p1 d1 k1 a2 p2 d2 k2 ↔
      (toLex (a1, toLex (p1, toLex (d1, k1)))
        : String ×ₗ (String ×ₗ (String ×ₗ String)))
        ≤ toLex (a2, toLex (p2, toLex (d2, k2))) := by
  simp [lexLe4, Prod.Lex.le_iff]

lemma lexLe4_trans {a1 p1 d1 k1 a2 p2 d2 k2 a3 p3 d3 k3 : String}
    (h1 : lexLe4 a1 p1 d1 k1 a2 p2 d2 k2) (h2 : lexLe4 a2 p2 d2 k2 a3 p3 d3 k3) :
    lexLe4 a1 p1 d1 k1 a3 p3 d3 k3 :=
  (lexLe4_iff_toLex a1 p1 d1 k1 a3 p3 d3 k3).mpr
    (le_trans ((lexLe4_iff_toLex a1 p1 d1 k1 a2 p2 d2 k2).mp h1)
      ((lexLe4_iff_toLex a2 p2 d2 k2 a3 p3 d3 k3).mp h2))

lemma lexLe4_total (a1 p1 d1 k1 a2 p2 d2 k2 : String) :
    lexLe4 a1 p1 d1 k1 a2 p2 d2 k2 ∨ lexLe4 a2 p2 d2 k2 a1 p1 d1 k1 := by
  rcases le_total
      ((toLex (a1, toLex (p1, toLex (d1, k1)))
        : String ×ₗ (String ×ₗ (String ×ₗ String))))
      (toLex (a2, toLex (p2, toLex (d2, k2)))) with h | h
  · exact Or.inl ((lexLe4_iff_toLex a1 p1 d1 k1 a2 p2 d2 k2).mpr h)
  · exact Or.inr ((lexLe4_iff_toLex a2 p2 d2 k2 a1 p1 d1 k1).mpr h)

lemma templateLe_trans : ∀ (a b c : TemplateRow), templateLe a b → templateLe b c →
    templateLe a c := by
  intro a b c hab hbc
  have h1 := (cmp4_le_iff _ _ _ _ _ _ _ _).mp (of_decide_eq_true hab)
  have h2 := (cmp4_le_iff _ _ _ _ _ _ _ _).mp (of_decide_eq_true hbc)
  exact decide_eq_true ((cmp4_le_iff _ _ _ _ _ _ _ _).mpr (lexLe4_trans h1 h2))

lemma templateLe_total : ∀ (a b : TemplateRow), templateLe a b || templateLe b a := by
  intro a b
  rw [Bool.or_eq_true]
  rcases lexLe4_total a.ALLOTMENT a.PASTURE a.DATE a.KA
      b.ALLOTMENT b.PASTURE b.DATE b.KA with h | h
  · exact Or.inl (decide_eq_true ((cmp4_le_iff _ _ _ _ _ _ _ _).mpr h))
  · exact Or.inr (decide_eq_true ((cmp4_le_iff _ _ _ _ _ _ _ _).mpr h))

lemma outLe_trans : ∀ (a b c : OutRow), outLe a b → outLe b c → outLe a c := by
  intro a b c hab hbc
  have h1 := (cmp4_le_iff _ _ _ _ _ _ _ _).mp (of_decide_eq_true hab)
  have h2 := (cmp4_le_iff _ _ _ _ _ _ _ _).mp (of_decide_eq_true hbc)
  exact decide_eq_true ((cmp4_le_iff _ _ _ _ _ _ _ _).mpr (lexLe4_trans h1 h2))

lemma outLe_total : ∀ (a b : OutRow), outLe a b || outLe b a := by
  intro a b
  rw [Bool.or_eq_true]
  rcases lexLe4_total a.ALLOTMENT a.PASTURE a.DATE a.KA
      b.ALLOTMENT b.PASTURE b.DATE b.KA with h | h
  · exact Or.inl (decide_eq_true ((cmp4_le_iff _ _ _ _ _ _ _ _).mpr h))
  · exact Or.inr (decide_eq_true ((cmp4_le_iff _ _ _ _ _ _ _ _).mpr h))

/-- Claim C6: the Template Builder's returned sequence and the Production
Aggregator's result rows are sorted ascending by allotment, then pasture,
then date, then ka, as string comparison. -/
theorem C6_sorted_outputs :
    (∀ cy : List CYRow,
      List.Sorted
        (fun a b : TemplateRow => lexLe4 a.ALLOTMENT a.PASTURE a.DATE a.KA
          b.ALLOTMENT b.PASTURE b.DATE b.KA)
        (makeProductionTemplateRows cy)) ∧
    (∀ (cy : List CYRow) (prodRows : List ProdRow),
      List.Sorted
        (fun a b : OutRow => lexLe4 a.ALLOTMENT a.PASTURE a.DATE a.KA
          b.ALLOTMENT b.PASTURE b.DATE b.KA)
        (computeProductionFromCY cy prodRows).rows) := by
  constructor
  · intro cy
    have hp := List.sorted_mergeSort templateLe_trans templateLe_total
      ((cy.foldl templStep ([], [])).2)
    exact hp.imp (fun hab => (cmp4_le_iff _ _ _ _ _ _ _ _).mp (of_decide_eq_true hab))
  · intro cy prodRows
    have hp := List.sorted_mergeSort outLe_trans outLe_total
      (((buildGroups cy).foldl
        (fun st p => outStep (computeSlopesByKA prodRows) st p.2) ([], [])).1)
    exact hp.imp (fun hab => (cmp4_le_iff _ _ _ _ _ _ _ _).mp (of_decide_eq_true hab))

/-! ## Template Builder claims -/

lemma templStep_inert (st : List String × List TemplateRow) (r : CYRow)
    (h : r.DATE = "" ∨ r.KA = "") : templStep st r = st := by
  unfold templStep
  rw [if_pos h]

lemma templStep_seen (st : List String × List TemplateRow) (r : CYRow)
    (hD : r.DATE ≠ "") (hK : r.KA ≠ "")
    (hmem : groupKey r.DATE r.ALLOTMENT r.PASTURE r.KA ∈ st.1) : templStep st r = st := by
  unfold templStep
  rw [if_neg (not_or.mpr ⟨hD, hK⟩), if_pos hmem]

lemma templStep_new (st : List String × List TemplateRow) (r : CYRow)
    (hD : r.DATE ≠ "") (hK : r.KA ≠ "")
    (hmem : groupKey r.DATE r.ALLOTMENT r.PASTURE r.KA ∉ st.1) :
    templStep st r = (st.1 ++ [groupKey r.DATE r.ALLOTMENT r.PASTURE r.KA],
      st.2 ++ BAG_NUMBERS.map (fun bag =>
        ⟨r.DATE, r.ALLOTMENT, r.PASTURE, r.KA, bag, "", "", "", ""⟩)) := by
  unfold templStep
  rw [if_neg (not_or.mpr ⟨hD, hK⟩), if_neg hmem]

lemma templStep_seen_mono (st : List String × List TemplateRow) (r : CYRow) :
    st.1 ⊆ (templStep st r).1 := by
  by_cases hg : r.DATE = "" ∨ r.KA = ""
  · rw [templStep_inert st r hg]
    exact fun x h => h
  · push_neg at hg
    by_cases hmem : groupKey r.DATE r.ALLOTMENT r.PASTURE r.KA ∈ st.1
    · rw [templStep_seen st r hg.1 hg.2 hmem]
      exact fun x h => h
    · rw [templStep_new st r hg.1 hg.2 hmem]
      exact List.subset_append_left _ _

lemma foldl_templStep_seen_mono :
    ∀ (cy : List CYRow) (st : List String × List TemplateRow),
      st.1 ⊆ (cy.foldl templStep st).1 := by
  intro cy
  induction cy with
  | nil => intro st; exact fun x h => h
  | cons r cy ih =>
    intro st
    exact fun x h => ih _ (templStep_seen_mono st r h)

lemma key_mem_templStep (st : List String × List TemplateRow) (r : CYRow)
    (hD : r.DATE ≠ "") (hK : r.KA ≠ "") :
    groupKey r.DATE r.ALLOTMENT r.PASTURE r.KA ∈ (templStep st r).1 := by
  by_cases hmem : groupKey r.DATE r.ALLOTMENT r.PASTURE r.KA ∈ st.1
  · rw [templStep_seen st r hD hK hmem]
    exact hmem
  · rw [templStep_new st r hD hK hmem]
    exact List.mem_append_right _ (by simp)

lemma templStep_absorb (r : CYRow) (ys : List CYRow) (st : List String × List TemplateRow) :
    templStep (ys.foldl templStep (templStep st r)) r
      = ys.foldl templStep (templStep st r) := by
  by_cases hg : r.DATE = "" ∨ r.KA = ""
  · exact templStep_inert _ r hg
  · push_neg at hg
    exact templStep_seen _ r hg.1 hg.2
      (foldl_templStep_seen_mono ys _ (key_mem_templStep st r hg.1 hg.2))

lemma countP_mergeSort {α : Type} (l : List α) (le : α → α → Bool) (p : α → Bool) :
    (l.mergeSort le).countP p = l.countP p :=
  List.Perm.countP_eq p (List.mergeSort_perm l le)

lemma templ_countP_step (st : List String × List TemplateRow) (r : CYRow)
    (h : ∀ (k : String) (b : ℕ), b ∈ BAG_NUMBERS →
      st.2.countP (templMatch k b) = if k ∈ st.1 then 1 else 0) :
    ∀ (k : String) (b : ℕ), b ∈ BAG_NUMBERS →
      (templStep st r).2.countP (templMatch k b)
        = if k ∈ (templStep st r).1 then 1 else 0 := by
  intro k b hb
  by_cases hg : r.DATE = "" ∨ r.KA = ""
  · rw [templStep_inert st r hg]
    exact h k b hb
  · push_neg at hg
    by_cases hseen : groupKey r.DATE r.ALLOTMENT r.PASTURE r.KA ∈ st.1
    · rw [templStep_seen st r hg.1 hg.2 hseen]
      exact h k b hb
    · rw [templStep_new st r hg.1 hg.2 hseen]
      simp only [List.countP_append]
      by_cases hk : k = groupKey r.DATE r.ALLOTMENT r.PASTURE r.KA
      · subst hk
        rw [h _ b hb, if_neg hseen]
        have hnew : (BAG_NUMBERS.map (fun bag =>
            (⟨r.DATE, r.ALLOTMENT, r.PASTURE, r.KA, bag, "", "", "", ""⟩ : TemplateRow))).countP
              (templMatch (groupKey r.DATE r.ALLOTMENT r.PASTURE r.KA) b) = 1 := by
          rw [List.countP_map]
          have hb3 : b = 1 ∨ b = 3 ∨ b = 5 := by simpa [BAG_NUMBERS] using hb
          rcases hb3 with rfl | rfl | rfl <;> simp [templMatch, BAG_NUMBERS]
        rw [hnew, if_pos (List.mem_append_right _ (by simp))]
      · have hnew : (BAG_NUMBERS.map (fun bag =>
            (⟨r.DATE, r.ALLOTMENT, r.PASTURE, r.KA, bag, "", "", "", ""⟩ : TemplateRow))).countP
              (templMatch k b) = 0 := by
          rw [List.countP_eq_zero]
          intro t ht
          obtain ⟨bag, hbag, rfl⟩ := List.mem_map.mp ht
          simp only [templMatch, Bool.and_eq_true, beq_iff_eq, not_and]
          intro hkey
          exact absurd hkey.symm hk
        rw [hnew, h k b hb, Nat.add_zero]
        have hiff : (k ∈ st.1 ++ [groupKey r.DATE r.ALLOTMENT r.PASTURE r.KA]) ↔ k ∈ st.1 := by
          simp [List.mem_append, hk]
        by_cases hks : k ∈ st.1
        · rw [if_pos hks, if_pos (hiff.mpr hks)]
        · rw [if_neg hks, if_neg (fun hx => hks (hiff.mp hx))]

lemma templ_countP_inv :
    ∀ (cy : List CYRow) (st : List String × List TemplateRow),
      (∀ (k : String) (b : ℕ), b ∈ BAG_NUMBERS →
        st.2.countP (templMatch k b) = if k ∈ st.1 then 1 else 0) →
      ∀ (k : String) (b : ℕ), b ∈ BAG_NUMBERS →
        ((cy.foldl templStep st).2).countP (templMatch k b)
          = if k ∈ (cy.foldl templStep st).1 then 1 else 0 := by
  intro cy
  induction cy with
  | nil => intro st h; exact h
  | cons r cy ih =>
    intro st h
    exact ih (templStep st r) (templ_countP_step st r h)

lemma templStep_seen_iff (st : List String × List TemplateRow) (r : CYRow) (k : String) :
    k ∈ (templStep st r).1 ↔
      k ∈ st.1 ∨ (r.DATE ≠ "" ∧ r.KA ≠ "" ∧ groupKey r.DATE r.ALLOTMENT r.PASTURE r.KA = k) := by
  by_cases hg : r.DATE = "" ∨ r.KA = ""
  · rw [templStep_inert st r hg]
    constructor
    · exact Or.inl
    · rintro (h | ⟨hD, hK, -⟩)
      · exact h
      · rcases hg with hg | hg
        · exact absurd hg hD
        · exact absurd hg hK
  · push_neg at hg
    by_cases hseen : groupKey r.DATE r.ALLOTMENT r.PASTURE r.KA ∈ st.1
    · rw [templStep_seen st r hg.1 hg.2 hseen]
      constructor
      · exact Or.inl
      · rintro (h | ⟨-, -, hkey⟩)
        · exact h
        · exact hkey ▸ hseen
    · rw [templStep_new st r hg.1 hg.2 hseen]
      simp [List.mem_append, hg.1, hg.2, eq_comm]

lemma templ_seen_iff :
    ∀ (cy : List CYRow) (st : List String × List TemplateRow) (k : String),
      k ∈ (cy.foldl templStep st).1 ↔
        k ∈ st.1 ∨ ∃ r ∈ cy, r.DATE ≠ "" ∧ r.KA ≠ "" ∧
          groupKey r.DATE r.ALLOTMENT r.PASTURE r.KA = k := by
  intro cy
  induction cy with
  | nil => intro st k; simp
  | cons r cy ih =>
    intro st k
    rw [List.foldl_cons, ih, templStep_seen_iff]
    constructor
    · rintro ((h | hr) | ⟨r2, hr2, hp⟩)
      · exact Or.inl h
      · exact Or.inr ⟨r, List.mem_cons_self r cy, hr⟩
      · exact Or.inr ⟨r2, List.mem_cons_of_mem r hr2, hp⟩
    · rintro (h | ⟨r2, hr2, hp⟩)
      · exact Or.inl (Or.inl h)
      · rcases List.mem_cons.mp hr2 with rfl | hr3
        · exact Or.inl (Or.inr hp)
        · exact Or.inr ⟨r2, hr3, hp⟩

/-- Counterexample to claim C5 as stated: two rows with distinct
(date, allotment, pasture, ka) tuples can collide on the joined composite
string key (when a field contains the literal separator `||`), so the
second tuple yields no template row at all instead of one row per bag. -/
theorem C5_template_counterexample :
    (⟨"a||b", "", "", "z", none⟩ : CYRow) ≠ ⟨"a", "b||", "", "z", none⟩ ∧
    groupKey "a||b" "" "" "z" = groupKey "a" "b||" "" "z" ∧
    (makeProductionTemplateRows
        [⟨"a||b", "", "", "z", none⟩, ⟨"a", "b||", "", "z", none⟩]).countP
      (fun (t : TemplateRow) => t.DATE == "a" && t.ALLOTMENT == "b||" && t.PASTURE == ""
        && t.KA == "z" && t.bagNumber == 1) = 0 := by
  refine ⟨by decide, by decide, ?_⟩
  unfold makeProductionTemplateRows
  rw [countP_mergeSort]
  decide

/-- Claim C5 (amended): template generation deduplicates by the composite
string key `DATE||ALLOTMENT||PASTURE||KA` (distinct field tuples may collide
when a field contains the separator): a duplicated row changes nothing, rows
missing date or ka contribute nothing, and each key of an eligible row
yields exactly one TemplateRow per bag number in {1, 3, 5}. -/
theorem C5_template_dedup :
    (∀ (xs ys zs : List CYRow) (r : CYRow),
      makeProductionTemplateRows (xs ++ r :: ys ++ r :: zs)
        = makeProductionTemplateRows (xs ++ r :: ys ++ zs)) ∧
    (∀ (xs ys : List CYRow) (r : CYRow), r.DATE = "" ∨ r.KA = "" →
      makeProductionTemplateRows (xs ++ r :: ys) = makeProductionTemplateRows (xs ++ ys)) ∧
    (∀ (cy : List CYRow) (r : CYRow) (b : ℕ),
      r ∈ cy → r.DATE ≠ "" → r.KA ≠ "" → b ∈ BAG_NUMBERS →
      (makeProductionTemplateRows cy).countP
        (templMatch (groupKey r.DATE r.ALLOTMENT r.PASTURE r.KA) b) = 1) := by
  refine ⟨?_, ?_, ?_⟩
  · intro xs ys zs r
    unfold makeProductionTemplateRows
    simp only [List.foldl_append, List.foldl_cons]
    rw [templStep_absorb]
  · intro xs ys r hg
    unfold makeProductionTemplateRows
    simp only [List.foldl_append, List.foldl_cons]
    rw [templStep_inert _ r hg]
  · intro cy r b hr hD hK hb
    unfold makeProductionTemplateRows
    rw [countP_mergeSort]
    rw [templ_countP_inv cy ([], []) (by simp) _ b hb]
    rw [if_pos ((templ_seen_iff cy ([], []) _).mpr
      (Or.inr ⟨r, hr, hD, hK, rfl⟩))]

/-- Witness for C5 at a concrete one-row input. -/
theorem C5_template_dedup_witness :
    (makeProductionTemplateRows [⟨"d", "a", "p", "k", none⟩]).countP
      (templMatch (groupKey "d" "a" "p" "k") 1) = 1 :=
  C5_template_dedup.2.2 [⟨"d", "a", "p", "k", none⟩] ⟨"d", "a", "p", "k", none⟩ 1
    (by simp) (by decide) (by decide) (by decide)

end CYApp
